import Mathlib

/-!
Verification of the castor calibration-and-registration engine.

The Lean definitions below are a shallow embedding of the Python sources
`castor/tools.py`, `castor/files_handling.py` and the alignment loop of
`castor/_console_scripts/pointing_analysis.py`.  Pure numerics (numpy
float arrays) are idealized as exact rationals; a possibly-NaN float is
an `Option ℚ` with `none` playing the role of NaN; images are pixel maps
`Fin n → ℚ` (a numpy scalar broadcast over an image is the corresponding
constant map); the file system, and the external libraries astropy, sep,
astroalign and cv2, are abstract environments supplied as parameters.
Warnings emitted via `warnings.warn` are collected in result lists, in
emission order.
-/

namespace Castor

/-- Errors raised by the pipeline.  The concrete form of the error that the
spec calls `EmptyInputError` is Python's `ValueError('... is empty')`,
raised by `create_master` and `reduction`. -/
inductive CastorError where
  | emptyInput (msg : String)
deriving DecidableEq

/-- A FITS file as the pipeline reads it: pixel data (pixel index to value),
the EXPTIME header value, and the parsed DATE-OBS acquisition timestamp.
Pixel values are exact rationals (the float arithmetic of the source is
idealized as exact); timestamps are integers, since only their ordering is
used by the code under verification. -/
structure FitsFile (n : ℕ) where
  data : Fin n → ℚ
  exptime : ℚ
  dateObs : ℤ

/-- File-system environment of one run.  `dirs d = none` models a
nonexistent directory (`os.listdir` raising `FileNotFoundError`);
`dirs d = some fs` gives the directory entries.  `files p` is the FITS file
stored at path `p` (paths the pipeline never opens are irrelevant). -/
structure Env (n : ℕ) where
  dirs : String → Option (List String)
  files : String → FitsFile n

/-- The test performed by `re.compile('(?i).+\\.fits?$').match f` in
`list_fits` (tools.py line 33): case-insensitively, the name ends in
`.fits` or `.fit` with at least one character before that suffix. -/
def isFitsName (s : String) : Bool :=
  let t := (s.data.map Char.toLower).reverse
  (decide (t.take 5 = ['s', 't', 'i', 'f', '.']) && decide (5 < s.data.length)) ||
    (decide (t.take 4 = ['t', 'i', 'f', '.']) && decide (4 < s.data.length))

/-- `os.path.join(directory, f)` as used by `list_fits`. -/
def joinPath (d f : String) : String := d ++ "/" ++ f

/-- `tools.list_fits` (lines 26 to 38): `None` gives `[]`; a nonexistent
directory raises `FileNotFoundError`, which is caught and gives `[]`;
otherwise the `.fits`/`.fit` entries are joined to the directory and
sorted. -/
def list_fits {n : ℕ} (env : Env n) (directory : Option String) : List String :=
  match directory with
  | none => []
  | some d =>
    match env.dirs d with
    | none => []
    | some allFiles =>
      List.insertionSort (· ≤ ·) ((allFiles.filter isFitsName).map (joinPath d))

/-- `tools.load_fits_data` with the default `norm_to_exptime=True`: the
pixel data divided by the EXPTIME header value (lines 48 to 54). -/
def load_fits_data {n : ℕ} (env : Env n) (path : String) : Fin n → ℚ :=
  fun i => (env.files path).data i / (env.files path).exptime

/-- The duck-typed `filenames` argument of `create_master`: either a
directory reference (resolved through `list_fits`) or an explicit file
list. -/
inductive MasterInput where
  | dir (d : Option String)
  | files (l : List String)

/-- The file list `create_master` actually iterates over (lines 114 to
116): a directory argument is resolved once through `list_fits`. -/
def resolveInput {n : ℕ} (env : Env n) (input : MasterInput) : List String :=
  match input with
  | .dir d => list_fits env d
  | .files l => l

/-- The warning text `'{} is empty, using default value {}'.format(filenames,
default)` of `create_master` line 119; at that point `filenames` is the
empty list, which Python formats as `[]`. -/
def emptyWarn (d : ℚ) : String := "[] is empty, using default value " ++ toString d

/-- `tools.create_master` (lines 97 to 129).  The returned master frame is
paired with the list of warnings the call emits.  An empty input set with a
default returns the default (a numpy scalar, modeled as the constant
image) and one warning; with no default it raises
`ValueError('[] is empty')`.  A non-empty set is accumulated into a zero
image frame by frame (`master += load_fits_data(filename)`) and divided by
the frame count. -/
def create_master {n : ℕ} (env : Env n) (input : MasterInput) (default : Option ℚ) :
    Except CastorError ((Fin n → ℚ) × List String) :=
  match resolveInput env input with
  | [] =>
    match default with
    | some d => .ok (fun _ => d, [emptyWarn d])
    | none => .error (.emptyInput "[] is empty")
  | f :: fs =>
    let master0 : Fin n → ℚ := fun _ => 0
    let master := (f :: fs).foldl (fun acc g => fun i => acc i + load_fits_data env g i) master0
    .ok (fun i => master i / (((f :: fs).length : ℕ) : ℚ), [])

/-- Sum of an image's pixels, as a reduction over the pixel index range. -/
def qSumFin {n : ℕ} (v : Fin n → ℚ) : ℚ :=
  ((List.range n).filterMap (fun i => if h : i < n then some (v ⟨i, h⟩) else none)).sum

/-- `np.mean` over an image: pixel sum divided by the pixel count. -/
def npMean {n : ℕ} (v : Fin n → ℚ) : ℚ := qSumFin v / (n : ℚ)

/-- Python's `'{}'.format` of the science directory argument in the
`ValueError` of `reduction` line 140 (`None` prints as `None`). -/
def fmtDirOpt : Option String → String
  | none => "None"
  | some s => s

/-- Comparison used to model `np.argsort(timestamps)` in `reduction`:
filename/timestamp pairs ordered by timestamp. -/
def tsLE (a b : String × ℤ) : Prop := a.2 ≤ b.2

instance : DecidableRel tsLE := fun a b => inferInstanceAs (Decidable (a.2 ≤ b.2))

instance : IsTotal (String × ℤ) tsLE := ⟨fun a b => le_total a.2 b.2⟩

instance : IsTrans (String × ℤ) tsLE := ⟨fun _ _ _ h1 h2 => le_trans h1 h2⟩

/-- `tools.reduction` (lines 131 to 155).  Masters are built with defaults
0, 0 and 1; the master flat is dark-subtracted and normalized by its own
mean; an empty science set raises `ValueError`; science frames are sorted
by their DATE-OBS timestamp (`np.argsort` is modeled by a stable sort —
every property proved below is invariant under the order of equal
timestamps, since filenames and timestamps are permuted together) and each
frame is calibrated as `(sci - master_sci_dark) / master_flat`.  Warnings
of the three `create_master` calls are collected in call order. -/
def reduction {n : ℕ} (env : Env n) (sciDir sciDarkDir flatDir flatDarkDir : Option String) :
    Except CastorError (List (Fin n → ℚ) × List ℤ × List String) :=
  match create_master env (.dir sciDarkDir) (some 0) with
  | .error e => .error e
  | .ok (masterSciDark, w1) =>
    match create_master env (.dir flatDarkDir) (some 0) with
    | .error e => .error e
    | .ok (masterFlatDark, w2) =>
      match create_master env (.dir flatDir) (some 1) with
      | .error e => .error e
      | .ok (masterFlat0, w3) =>
        let masterFlat1 : Fin n → ℚ := fun i => masterFlat0 i - masterFlatDark i
        let masterFlat : Fin n → ℚ := fun i => masterFlat1 i / npMean masterFlat1
        match list_fits env sciDir with
        | [] => .error (.emptyInput (fmtDirOpt sciDir ++ " is empty"))
        | f :: fs =>
          let pairedNames := (f :: fs).map (fun g => (g, (env.files g).dateObs))
          let sortedPairs := List.insertionSort tsLE pairedNames
          let timestamps := sortedPairs.map (fun p => p.2)
          let sciImages := sortedPairs.map (fun p => fun i =>
            (load_fits_data env p.1 i - masterSciDark i) / masterFlat i)
          .ok (sciImages, timestamps, w1 ++ w2 ++ w3)

/-- The master frame a `create_master` call with a default produces (such a
call never fails; see `create_master_default_ok`).  Used to state the
calibration formula of the spec. -/
def masterWithDefault {n : ℕ} (env : Env n) (dir : Option String) (d : ℚ) : Fin n → ℚ :=
  match create_master env (.dir dir) (some d) with
  | .ok (m, _) => m
  | .error _ => fun _ => 0

/-- The normalized master flat of the spec: `(master flat - master flat
dark)`, divided by its own mean. -/
def normalizedMasterFlat {n : ℕ} (env : Env n) (flatDir flatDarkDir : Option String) : Fin n → ℚ :=
  fun i => (masterWithDefault env flatDir 1 i - masterWithDefault env flatDarkDir 0 i) /
    npMean (fun j => masterWithDefault env flatDir 1 j - masterWithDefault env flatDarkDir 0 j)

/-- The calibration formula of the spec for one science frame:
`(raw - master_science_dark) / master_flat`, the raw frame being
exposure-normalized on load. -/
def calibratedFrame {n : ℕ} (env : Env n) (sciDarkDir flatDir flatDarkDir : Option String)
    (g : String) : Fin n → ℚ :=
  fun i => (load_fits_data env g i - masterWithDefault env sciDarkDir 0 i) /
    normalizedMasterFlat env flatDir flatDarkDir i

theorem create_master_default_ok {n : ℕ} (env : Env n) (input : MasterInput) (d : ℚ) :
    ∃ m w, create_master env input (some d) = .ok (m, w) := by
  unfold create_master
  cases resolveInput env input with
  | nil => exact ⟨_, _, rfl⟩
  | cons f fs => exact ⟨_, _, rfl⟩

theorem masterWithDefault_eq {n : ℕ} (env : Env n) (dir : Option String) (d : ℚ)
    {m : Fin n → ℚ} {w : List String}
    (h : create_master env (.dir dir) (some d) = .ok (m, w)) :
    masterWithDefault env dir d = m := by
  unfold masterWithDefault
  rw [h]

/-- A persisted cube file: the primary data array (a list of frames, each a
pixel list with `none` as NaN) and the side table of per-frame timestamps,
as written by `save_fits` and read back by
`load_fits_data(..., norm_to_exptime=False, timestamps_hdu=1)`. -/
abbrev CubeTs := List (List (Option ℚ)) × List ℤ

/-- The cache files visible to `open_or_compute`: path to content, `none`
meaning the file does not exist. -/
abbrev FileStore := String → Option CubeTs

/-- Point update of the file store (a write or a delete at one path). -/
def fsUpdate (fs : FileStore) (k : String) (v : Option CubeTs) : FileStore :=
  fun x => if x = k then v else fs x

/-- Outcome of the `save_fits` call inside `open_or_compute`: either the
write succeeds, or an exception of class `exClass` with message `msg` is
raised.  `fileCreated` records whether the failure happened after
`writeto` had already created the target file (leaving a partial file on
disk) or before any file existed — for instance an error raised while
building the HDU list, or `writeto` failing to open the path; both run
inside the `try` of the source and reach the same `except` clause. -/
inductive SaveOutcome where
  | ok
  | fail (exClass : String) (msg : String) (fileCreated : Bool)

/-- An uncaught operating-system error escaping `open_or_compute`:
`os.remove` on a path with no file raises `FileNotFoundError`, and there
is no handler around it. -/
inductive OsError where
  | fileNotFound (path : String)
deriving DecidableEq

/-- What a returning call to `open_or_compute` produces: the returned data
and timestamps, the file store after the call, the warnings emitted, and
how many times the compute function was invoked. -/
structure OocResult where
  data : List (List (Option ℚ))
  timestamps : List ℤ
  fs : FileStore
  warnings : List String
  computeCalls : ℕ

/-- `open_or_compute` (tools.py lines 67 to 82, identical in
files_handling.py): if `filename` exists it is loaded and returned; else
the compute function is invoked (its value is the parameter `compute`, and
`computeCalls` counts the invocations) and, unless `save` is false, the
result is written with `save_fits`.  If that write fails, the `except`
clause runs `os.remove(filename)` unconditionally: when the failure left a
partial file on disk, the file is deleted (the transient partial content is
never read, so the store ends with no file at the path, as before the
call), one warning naming the exception class and message is emitted, and
the computed in-memory pair is still returned; but when `save_fits` failed
before creating the file, `os.remove` itself raises `FileNotFoundError`,
which nothing catches — the call returns no result and emits no
warning. -/
def open_or_compute (fs : FileStore) (filename : String) (compute : CubeTs)
    (save : Bool) (outcome : SaveOutcome) : Except OsError OocResult :=
  match fs filename with
  | some (d, ts) => .ok ⟨d, ts, fs, [], 0⟩
  | none =>
    let d := compute.1
    let ts := compute.2
    if save then
      match outcome with
      | .ok => .ok ⟨d, ts, fsUpdate fs filename (some (d, ts)), [], 1⟩
      | .fail c m fileCreated =>
        if fileCreated then
          .ok ⟨d, ts, fsUpdate fs filename none,
            [c ++ " occured while saving " ++ filename ++ ": " ++ m], 1⟩
        else .error (.fileNotFound filename)
    else .ok ⟨d, ts, fs, [], 1⟩

theorem list_foldl_add_apply {n : ℕ} (env : Env n) (names : List String)
    (acc : Fin n → ℚ) (i : Fin n) :
    names.foldl (fun a g => fun j => a j + load_fits_data env g j) acc i
      = acc i + (names.map (fun g => load_fits_data env g i)).sum := by
  induction names generalizing acc with
  | nil => simp
  | cons g gs ih =>
    simp only [List.foldl_cons, List.map_cons, List.sum_cons]
    rw [ih]
    ring

/-- C3: on an empty input set, `create_master` returns the supplied default
with exactly one warning naming the (empty) input set and the substituted
value, and raises the empty-input error when no default was supplied. -/
theorem claim_C3_create_master_empty {n : ℕ} (env : Env n) (input : MasterInput)
    (h : resolveInput env input = []) :
    (∀ d : ℚ, create_master env input (some d) = .ok (fun _ => d, [emptyWarn d])) ∧
      create_master env input none = .error (.emptyInput "[] is empty") := by
  constructor
  · intro d
    unfold create_master
    rw [h]
  · unfold create_master
    rw [h]

theorem claim_C3_witness :
    resolveInput (⟨fun _ => none, fun _ => ⟨fun _ => 0, 1, 0⟩⟩ : Env 1) (.files []) = [] ∧
      ((∀ d : ℚ, create_master (⟨fun _ => none, fun _ => ⟨fun _ => 0, 1, 0⟩⟩ : Env 1)
            (.files []) (some d) = .ok (fun _ => d, [emptyWarn d])) ∧
        create_master (⟨fun _ => none, fun _ => ⟨fun _ => 0, 1, 0⟩⟩ : Env 1) (.files []) none
          = .error (.emptyInput "[] is empty")) :=
  ⟨rfl, claim_C3_create_master_empty (⟨fun _ => none, fun _ => ⟨fun _ => 0, 1, 0⟩⟩ : Env 1)
    (.files []) rfl⟩

/-- C4: on a non-empty input set, `create_master` accumulates the
exposure-normalized frames into a zero frame and divides by the count, so
the result is their arithmetic mean; in particular, averaging any number of
identical exposure-normalized frames returns that frame exactly. -/
theorem claim_C4_create_master_mean {n : ℕ} (env : Env n) (names : List String)
    (default : Option ℚ) (h : names ≠ []) :
    ∃ m : Fin n → ℚ, create_master env (.files names) default = .ok (m, []) ∧
      (∀ i, m i = (names.map (fun g => load_fits_data env g i)).sum / (names.length : ℚ)) ∧
      (∀ g0 : Fin n → ℚ, (∀ f ∈ names, load_fits_data env f = g0) → m = g0) := by
  match names, h with
  | f :: fs, _ =>
    refine ⟨_, rfl, fun i => ?_, fun g0 hg0 => ?_⟩
    · rw [list_foldl_add_apply]
      simp
    · funext i
      rw [list_foldl_add_apply]
      have hmap : (f :: fs).map (fun g => load_fits_data env g i)
          = (f :: fs).map (fun _ => g0 i) := by
        refine List.map_congr_left (fun a ha => ?_)
        rw [hg0 a ha]
      have hsum : ∀ l : List String, (l.map (fun _ => g0 i)).sum = (l.length : ℚ) * g0 i := by
        intro l
        induction l with
        | nil => simp
        | cons a t iht =>
          simp only [List.map_cons, List.sum_cons, List.length_cons, iht]
          push_cast
          ring
      rw [hmap, hsum]
      have hne : (((f :: fs).length : ℕ) : ℚ) ≠ 0 := by
        exact_mod_cast (Nat.cast_ne_zero (R := ℚ)).mpr (by simp)
      field_simp

theorem claim_C4_witness :
    ∃ m : Fin 1 → ℚ,
      create_master (⟨fun _ => none, fun _ => ⟨fun _ => 6, 2, 0⟩⟩ : Env 1)
          (.files ["a", "b"]) none = .ok (m, []) ∧
      (∀ i, m i = ((["a", "b"] : List String).map
          (fun g => load_fits_data (⟨fun _ => none, fun _ => ⟨fun _ => 6, 2, 0⟩⟩ : Env 1) g i)).sum
            / ((["a", "b"] : List String).length : ℚ)) ∧
      (∀ g0 : Fin 1 → ℚ, (∀ f ∈ (["a", "b"] : List String),
          load_fits_data (⟨fun _ => none, fun _ => ⟨fun _ => 6, 2, 0⟩⟩ : Env 1) f = g0) → m = g0) :=
  claim_C4_create_master_mean (⟨fun _ => none, fun _ => ⟨fun _ => 6, 2, 0⟩⟩ : Env 1)
    ["a", "b"] none (by simp)

/-- C10: a nonexistent directory (and a `None` directory argument) yields
an empty FITS listing, so `create_master` on it behaves exactly as in the
empty-directory case: default plus one warning when a default is supplied,
the empty-input error otherwise — never a file-system error. -/
theorem claim_C10_list_fits_missing_dir {n : ℕ} (env : Env n) (path : String)
    (h : env.dirs path = none) :
    list_fits env (some path) = [] ∧ list_fits env none = [] ∧
      (∀ d : ℚ, create_master env (.dir (some path)) (some d)
        = .ok (fun _ => d, [emptyWarn d])) ∧
      create_master env (.dir (some path)) none = .error (.emptyInput "[] is empty") := by
  have hl : list_fits env (some path) = [] := by
    simp only [list_fits, h]
  have hr : resolveInput env (.dir (some path)) = [] := hl
  refine ⟨hl, rfl, ?_, ?_⟩
  · intro d
    unfold create_master
    rw [hr]
  · unfold create_master
    rw [hr]

theorem claim_C10_witness :
    list_fits (⟨fun _ => none, fun _ => ⟨fun _ => 0, 1, 0⟩⟩ : Env 1) (some "gone") = [] ∧
      list_fits (⟨fun _ => none, fun _ => ⟨fun _ => 0, 1, 0⟩⟩ : Env 1) none = [] ∧
      (∀ d : ℚ, create_master (⟨fun _ => none, fun _ => ⟨fun _ => 0, 1, 0⟩⟩ : Env 1)
          (.dir (some "gone")) (some d) = .ok (fun _ => d, [emptyWarn d])) ∧
      create_master (⟨fun _ => none, fun _ => ⟨fun _ => 0, 1, 0⟩⟩ : Env 1)
          (.dir (some "gone")) none = .error (.emptyInput "[] is empty") :=
  claim_C10_list_fits_missing_dir (⟨fun _ => none, fun _ => ⟨fun _ => 0, 1, 0⟩⟩ : Env 1)
    "gone" rfl

/-- Concrete one-pixel environment used by witnesses of the reduction
claims: a science directory with one FITS file, all calibration
directories nonexistent. -/
def envSci : Env 1 :=
  ⟨fun d => if d = "sci" then some ["a.fits"] else none, fun _ => ⟨fun _ => 4, 2, 10⟩⟩

/-- C5: the reducer fails with the empty-input error when the science set
is empty, and otherwise every output frame is
`(raw - master_science_dark) / master_flat` with the master flat
dark-subtracted and normalized by its own mean (`calibratedFrame`). -/
theorem claim_C5_reduction {n : ℕ} (env : Env n)
    (sciDir sciDarkDir flatDir flatDarkDir : Option String) :
    (list_fits env sciDir = [] →
      reduction env sciDir sciDarkDir flatDir flatDarkDir
        = .error (.emptyInput (fmtDirOpt sciDir ++ " is empty"))) ∧
    (∀ frames ts w, reduction env sciDir sciDarkDir flatDir flatDarkDir = .ok (frames, ts, w) →
      ∃ names : List String, names.Perm (list_fits env sciDir) ∧
        frames = names.map (calibratedFrame env sciDarkDir flatDir flatDarkDir)) := by
  obtain ⟨m1, w1, h1⟩ := create_master_default_ok env (.dir sciDarkDir) 0
  obtain ⟨m2, w2, h2⟩ := create_master_default_ok env (.dir flatDarkDir) 0
  obtain ⟨m3, w3, h3⟩ := create_master_default_ok env (.dir flatDir) 1
  constructor
  · intro hempty
    simp only [reduction, h1, h2, h3, hempty]
  · intro frames ts w hok
    cases hsci : list_fits env sciDir with
    | nil =>
      rw [reduction] at hok
      simp only [h1, h2, h3, hsci] at hok
      exact Except.noConfusion hok
    | cons f fs =>
      simp only [reduction, h1, h2, h3, hsci, Except.ok.injEq, Prod.mk.injEq] at hok
      obtain ⟨hframes, _, _⟩ := hok
      set pairs := (f :: fs).map (fun g => (g, (env.files g).dateObs)) with hpairs
      refine ⟨(List.insertionSort tsLE pairs).map (fun p => p.1), ?_, ?_⟩
      · have hperm := (List.perm_insertionSort tsLE pairs).map (fun p : String × ℤ => p.1)
        have hfst : pairs.map (fun p : String × ℤ => p.1) = f :: fs := by
          rw [hpairs, List.map_map]
          simp [Function.comp_def]
        rw [hfst] at hperm
        exact hperm
      · rw [← hframes, List.map_map]
        refine List.map_congr_left (fun p hp => ?_)
        have hcal : calibratedFrame env sciDarkDir flatDir flatDarkDir p.1
            = fun i => (load_fits_data env p.1 i - m1 i) /
              ((m3 i - m2 i) / npMean (fun j => m3 j - m2 j)) := by
          funext i
          simp only [calibratedFrame, normalizedMasterFlat,
            masterWithDefault_eq env sciDarkDir 0 h1, masterWithDefault_eq env flatDarkDir 0 h2,
            masterWithDefault_eq env flatDir 1 h3]
        show (fun i => (load_fits_data env p.1 i - m1 i) /
            ((m3 i - m2 i) / npMean (fun j => m3 j - m2 j)))
          = calibratedFrame env sciDarkDir flatDir flatDarkDir p.1
        rw [hcal]

theorem claim_C5_witness :
    (reduction (⟨fun _ => none, fun _ => ⟨fun _ => 0, 1, 0⟩⟩ : Env 1) none none none none
      = .error (.emptyInput (fmtDirOpt none ++ " is empty"))) ∧
    ∃ frames ts w, reduction envSci (some "sci") none none none = .ok (frames, ts, w) ∧
      ∃ names : List String, names.Perm (list_fits envSci (some "sci")) ∧
        frames = names.map (calibratedFrame envSci none none none) :=
  ⟨(claim_C5_reduction (⟨fun _ => none, fun _ => ⟨fun _ => 0, 1, 0⟩⟩ : Env 1)
      none none none none).1 rfl,
    ⟨_, _, _, rfl, (claim_C5_reduction envSci (some "sci") none none none).2 _ _ _ rfl⟩⟩

/-- C6: any accepted science set yields a timestamp sequence sorted
non-decreasing, and frames and timestamps are co-permuted by the same sort
order: position `k` of the output cube is the calibrated version of the
raw frame originally paired with the timestamp at position `k`. -/
theorem claim_C6_reduction_sorted {n : ℕ} (env : Env n)
    (sciDir sciDarkDir flatDir flatDarkDir : Option String)
    (frames : List (Fin n → ℚ)) (ts : List ℤ) (w : List String)
    (hok : reduction env sciDir sciDarkDir flatDir flatDarkDir = .ok (frames, ts, w)) :
    ts.Sorted (· ≤ ·) ∧
      ∃ names : List String, names.Perm (list_fits env sciDir) ∧
        ts = names.map (fun g => (env.files g).dateObs) ∧
        frames = names.map (calibratedFrame env sciDarkDir flatDir flatDarkDir) := by
  obtain ⟨m1, w1, h1⟩ := create_master_default_ok env (.dir sciDarkDir) 0
  obtain ⟨m2, w2, h2⟩ := create_master_default_ok env (.dir flatDarkDir) 0
  obtain ⟨m3, w3, h3⟩ := create_master_default_ok env (.dir flatDir) 1
  cases hsci : list_fits env sciDir with
  | nil =>
    rw [reduction] at hok
    simp only [h1, h2, h3, hsci] at hok
    exact Except.noConfusion hok
  | cons f fs =>
    simp only [reduction, h1, h2, h3, hsci, Except.ok.injEq, Prod.mk.injEq] at hok
    obtain ⟨hframes, hts, _⟩ := hok
    set pairs := (f :: fs).map (fun g => (g, (env.files g).dateObs)) with hpairs
    have hsortperm := List.perm_insertionSort tsLE pairs
    have hmem : ∀ p ∈ List.insertionSort tsLE pairs, p.2 = (env.files p.1).dateObs := by
      intro p hp
      have hpmem : p ∈ pairs := hsortperm.mem_iff.mp hp
      rw [hpairs] at hpmem
      obtain ⟨g, _, hg⟩ := List.mem_map.mp hpmem
      rw [← hg]
    constructor
    · rw [← hts]
      have hsorted := List.sorted_insertionSort tsLE pairs
      exact List.Pairwise.map (fun p : String × ℤ => p.2) (fun a b hab => hab) hsorted
    · refine ⟨(List.insertionSort tsLE pairs).map (fun p => p.1), ?_, ?_, ?_⟩
      · have hperm := hsortperm.map (fun p : String × ℤ => p.1)
        have hfst : pairs.map (fun p : String × ℤ => p.1) = f :: fs := by
          rw [hpairs, List.map_map]
          simp [Function.comp_def]
        rw [hfst] at hperm
        exact hperm
      · rw [← hts, List.map_map]
        exact (List.map_congr_left (fun p hp => (hmem p hp).symm)).symm
      · rw [← hframes, List.map_map]
        refine List.map_congr_left (fun p hp => ?_)
        have hcal : calibratedFrame env sciDarkDir flatDir flatDarkDir p.1
            = fun i => (load_fits_data env p.1 i - m1 i) /
              ((m3 i - m2 i) / npMean (fun j => m3 j - m2 j)) := by
          funext i
          simp only [calibratedFrame, normalizedMasterFlat,
            masterWithDefault_eq env sciDarkDir 0 h1, masterWithDefault_eq env flatDarkDir 0 h2,
            masterWithDefault_eq env flatDir 1 h3]
        show (fun i => (load_fits_data env p.1 i - m1 i) /
            ((m3 i - m2 i) / npMean (fun j => m3 j - m2 j)))
          = calibratedFrame env sciDarkDir flatDir flatDarkDir p.1
        rw [hcal]

theorem claim_C6_witness :
    ∃ frames ts w, reduction envSci (some "sci") none none none = .ok (frames, ts, w) ∧
      ts.Sorted (· ≤ ·) ∧
      ∃ names : List String, names.Perm (list_fits envSci (some "sci")) ∧
        ts = names.map (fun g => (envSci.files g).dateObs) ∧
        frames = names.map (calibratedFrame envSci none none none) :=
  ⟨_, _, _, rfl, claim_C6_reduction_sorted envSci (some "sci") none none none _ _ _ rfl⟩

/-- C7 (amended): the cache-or-compute store short-circuits on an existing
file without invoking the compute function; on a missing file it computes
once and, unless saving is suppressed, persists.  When the save fails
after a partial file was created, the partial file is deleted, one warning
naming the exception class and message is emitted, and the computed
in-memory result is still returned; but when the save fails before the
file was created, the cleanup's unconditional `os.remove` raises an
uncaught `FileNotFoundError` — no warning is emitted and the computed
result is not returned. -/
theorem claim_C7_open_or_compute (fs : FileStore) (filename : String) (compute : CubeTs)
    (save : Bool) (outcome : SaveOutcome) :
    (∀ c : CubeTs, fs filename = some c →
      open_or_compute fs filename compute save outcome = .ok ⟨c.1, c.2, fs, [], 0⟩) ∧
    (fs filename = none →
      (∀ r : OocResult, open_or_compute fs filename compute save outcome = .ok r →
        r.computeCalls = 1 ∧ r.data = compute.1 ∧ r.timestamps = compute.2) ∧
      (save = true → outcome = .ok →
        open_or_compute fs filename compute save outcome
          = .ok ⟨compute.1, compute.2,
              fsUpdate fs filename (some (compute.1, compute.2)), [], 1⟩) ∧
      (∀ c m, save = true → outcome = .fail c m true →
        open_or_compute fs filename compute save outcome
          = .ok ⟨compute.1, compute.2, fsUpdate fs filename none,
              [c ++ " occured while saving " ++ filename ++ ": " ++ m], 1⟩) ∧
      (∀ c m, save = true → outcome = .fail c m false →
        open_or_compute fs filename compute save outcome
          = .error (.fileNotFound filename)) ∧
      (save = false →
        open_or_compute fs filename compute save outcome
          = .ok ⟨compute.1, compute.2, fs, [], 1⟩)) := by
  constructor
  · intro c hc
    obtain ⟨d, ts⟩ := c
    unfold open_or_compute
    rw [hc]
  · intro h0
    unfold open_or_compute
    rw [h0]
    cases save with
    | false =>
      refine ⟨?_, by simp, by simp, by simp, fun _ => rfl⟩
      rintro r hr
      cases hr
      exact ⟨rfl, rfl, rfl⟩
    | true =>
      cases outcome with
      | ok =>
        refine ⟨?_, fun _ _ => rfl, by simp, by simp, by simp⟩
        rintro r hr
        cases hr
        exact ⟨rfl, rfl, rfl⟩
      | fail c0 m0 created0 =>
        cases created0 with
        | true =>
          refine ⟨?_, by simp, ?_, by simp, by simp⟩
          · rintro r hr
            cases hr
            exact ⟨rfl, rfl, rfl⟩
          · intro c m _ heq
            obtain ⟨rfl, rfl⟩ : c0 = c ∧ m0 = m := by
              cases heq
              exact ⟨rfl, rfl⟩
            rfl
        | false =>
          refine ⟨?_, by simp, by simp, fun c m _ _ => rfl, by simp⟩
          rintro r hr
          cases hr

/-- C7, the frozen claim at a concrete input: a save failure raised before
the target file was created (for example an error while building the HDU
list, or `writeto` unable to open the path) makes the cleanup's
`os.remove` raise `FileNotFoundError`, which nothing catches — the call
emits no warning and returns no result, instead of deleting a partial
file, warning once, and returning the computed pair as the claim
states. -/
theorem claim_C7_counterexample :
    open_or_compute (fun _ => none) "cube.fits" ([[some 1]], [5]) true
        (.fail "TypeError" "bad header" false)
      = .error (.fileNotFound "cube.fits") ∧
    ∀ r : OocResult,
      open_or_compute (fun _ => none) "cube.fits" ([[some 1]], [5]) true
        (.fail "TypeError" "bad header" false) ≠ .ok r := by
  refine ⟨rfl, ?_⟩
  intro r hr
  cases hr

theorem claim_C7_witness :
    open_or_compute (fun _ => some ([[some 2]], [7])) "cube.fits" ([[some 1]], [5]) true .ok
      = .ok ⟨[[some 2]], [7], fun _ => some ([[some 2]], [7]), [], 0⟩ ∧
    open_or_compute (fun _ => none) "cube.fits" ([[some 1]], [5]) true
        (.fail "OSError" "disk full" true)
      = .ok ⟨[[some 1]], [5], fsUpdate (fun _ => none) "cube.fits" none,
          ["OSError" ++ " occured while saving " ++ "cube.fits" ++ ": " ++ "disk full"], 1⟩ ∧
    open_or_compute (fun _ => none) "cube.fits" ([[some 1]], [5]) true
        (.fail "TypeError" "bad header" false)
      = .error (.fileNotFound "cube.fits") := by
  have h1 := (claim_C7_open_or_compute (fun _ => some ([[some 2]], [7])) "cube.fits"
    ([[some 1]], [5]) true .ok).1 ([[some 2]], [7]) rfl
  have h2 := (claim_C7_open_or_compute (fun _ => none) "cube.fits" ([[some 1]], [5]) true
    (.fail "OSError" "disk full" true)).2 rfl
  have h3 := (claim_C7_open_or_compute (fun _ => none) "cube.fits" ([[some 1]], [5]) true
    (.fail "TypeError" "bad header" false)).2 rfl
  exact ⟨h1, h2.2.2.1 "OSError" "disk full" rfl rfl,
    h3.2.2.2.1 "TypeError" "bad header" rfl rfl⟩

/-- Image of the alignment pipeline: a flat list of pixels, `none` playing
the role of a NaN float. -/
abbrev RImg := List (Option ℚ)

/-- Numpy scalar subtraction with NaN propagation. -/
def osub : Option ℚ → Option ℚ → Option ℚ
  | some a, some b => some (a - b)
  | _, _ => none

/-- Numpy scalar addition with NaN propagation. -/
def oadd : Option ℚ → Option ℚ → Option ℚ
  | some a, some b => some (a + b)
  | _, _ => none

/-- Numpy scalar multiplication with NaN propagation. -/
def omul : Option ℚ → Option ℚ → Option ℚ
  | some a, some b => some (a * b)
  | _, _ => none

/-- Numpy scalar division with NaN propagation (infinities are outside the
modeled value range). -/
def odiv : Option ℚ → Option ℚ → Option ℚ
  | some a, some b => some (a / b)
  | _, _ => none

/-- Binary minimum on the rationals, written out so that it evaluates by
kernel reduction. -/
def qmin (a b : ℚ) : ℚ := if a ≤ b then a else b

/-- Binary maximum on the rationals, written out so that it evaluates by
kernel reduction. -/
def qmax (a b : ℚ) : ℚ := if a ≤ b then b else a

/-- `np.nanmin`: minimum over the non-NaN pixels, NaN if there are none. -/
def nanmin (img : RImg) : Option ℚ :=
  match img.filterMap id with
  | [] => none
  | v :: vs => some (vs.foldl qmin v)

/-- `np.nanmax`: maximum over the non-NaN pixels, NaN if there are none. -/
def nanmax (img : RImg) : Option ℚ :=
  match img.filterMap id with
  | [] => none
  | v :: vs => some (vs.foldl qmax v)

/-- A 2x3 affine matrix, row-major; entries are `Option ℚ` so that a matrix
with NaN entries is expressible. -/
abbrev Mat23 := List (List (Option ℚ))

/-- The fallback matrix `np.array([[1, 0, 0], [0, 1, 0]])` substituted by
`register_stars` when the solver fails (tools.py line 205): the identity
transform. -/
def idMat23 : Mat23 := [[some 1, some 0, some 0], [some 0, some 1, some 0]]

/-- Whether every entry of a matrix is NaN, the shape the spec's
invalid-transform sentinel prescribes. -/
def matAllNaN (m : Mat23) : Bool := m.all (fun row => row.all (fun e => e.isNone))

/-- The external libraries used by `register_stars`:
`astroalign._find_sources`, `astroalign.find_transform` composed with
`p.params[:-1]` (either a 2x3 matrix, or a raised exception carried as a
message string), and `cv2.warpAffine` with NaN border value. -/
structure AlignExtern where
  findSources : RImg → List (ℚ × ℚ)
  findTransform : RImg → List (ℚ × ℚ) → Except String Mat23
  warpAffine : RImg → Mat23 → RImg

/-- `tools.affine_transform` (lines 159 to 168): rescale the frame to the
unit interval by its own NaN-ignoring min and max, warp, and rescale
back. -/
def affine_transform (ext : AlignExtern) (img : RImg) (mat : Mat23) : RImg :=
  let mn := nanmin img
  let mx := nanmax img
  let norm := img.map (fun p => odiv (osub p mn) (osub mx mn))
  let warped := ext.warpAffine norm mat
  warped.map (fun p => oadd (omul p (osub mx mn)) mn)

/-- The reference image of a `register_stars` call (lines 189 to 193): the
explicit argument, or the first frame of the cube. -/
def regRefImage (images : List RImg) (refImg : Option RImg) : RImg :=
  match refImg with
  | none => images.headD []
  | some r => r

/-- The `first_im_is_ref` flag of `register_stars`. -/
def regFirstIsRef (refImg : Option RImg) : Bool := refImg.isNone

/-- One iteration of the `register_stars` loop on frame `i` (lines 197 to
206): the value written back into `images[i]` (the untouched frame for the
skipped reference frame), the transform matrix used — a ghost observation
of the loop-local `mat`, `none` when no estimation was attempted — and the
warning emitted, if any.  On solver failure the frame is warped with the
identity fallback matrix. -/
def registerStep (ext : AlignExtern) (refSources : List (ℚ × ℚ)) (firstIsRef : Bool)
    (i : ℕ) (img : RImg) : RImg × Option Mat23 × Option String :=
  if i = 0 ∧ firstIsRef = true then (img, none, none)
  else
    match ext.findTransform img refSources with
    | .ok p => (affine_transform ext img p, some p, none)
    | .error e =>
      (affine_transform ext img idMat23, some idMat23,
        some ("Image " ++ toString i ++ ": " ++ e))

/-- Result of a `register_stars` call.  The source mutates its input numpy
array in place (`images[i] = affine_transform(img, mat)`, line 206) and
returns that same array (line 208): `images` is the content of the
returned array and `callerBuffer` the content of the caller's input array
object after the call — by construction the same list, recording the
aliasing.  `usedMats` observes the per-frame transform used and `warnings`
collects the emitted warnings in loop order. -/
structure RegResult where
  images : List RImg
  timestamps : List ℤ
  callerBuffer : List RImg
  warnings : List String
  usedMats : List (Option Mat23)

/-- `tools.register_stars` (lines 170 to 208).  The reference sources are
extracted once before the loop, and iteration `i` reads `images[i]` before
overwriting it, so each output frame is a function of the original frame at
the same index; the sequential loop is therefore a map over the enumerated
original cube. -/
def register_stars (ext : AlignExtern) (images : List RImg) (timestamps : List ℤ)
    (refImg : Option RImg) : RegResult :=
  let firstIsRef := regFirstIsRef refImg
  let refSources := ext.findSources (regRefImage images refImg)
  let results := images.enum.map (fun p => registerStep ext refSources firstIsRef p.1 p.2)
  { images := results.map (fun r => r.1)
    timestamps := timestamps
    callerBuffer := results.map (fun r => r.1)
    warnings := results.filterMap (fun r => r.2.2)
    usedMats := results.map (fun r => r.2.1) }

/-- A similarity transform as `skimage.transform.SimilarityTransform`
exposes it in `pointing_analysis`: scale, rotation and translation, each
possibly NaN. -/
structure SimTrans where
  scale : Option ℚ
  rotation : Option ℚ
  translation : Option ℚ × Option ℚ
deriving DecidableEq

/-- `skt.SimilarityTransform(scale=np.nan, rotation=np.nan,
translation=np.nan)`, the sentinel substituted by `pointing_analysis`
(lines 116 to 117). -/
def nanSimTrans : SimTrans := ⟨none, none, (none, none)⟩

/-- Externals of the alignment loop of `pointing_analysis.main` (lines 108
to 118): `photometry.sep_sources_coordinates`, and the fallible body of its
`try` block — source extraction on the frame followed by
`astroalign.find_transform` against the reference sources. -/
structure PointExtern where
  sepCoords : RImg → List (ℚ × ℚ)
  solve : RImg → List (ℚ × ℚ) → Except String SimTrans

/-- One iteration of the `pointing_analysis` alignment loop on frame `i`:
the transform appended (the NaN sentinel on failure) and the warning
emitted, if any. -/
def pointStep (ext : PointExtern) (refSources : List (ℚ × ℚ)) (i : ℕ) (img : RImg) :
    SimTrans × Option String :=
  match ext.solve img refSources with
  | .ok t => (t, none)
  | .error e => (nanSimTrans, some ("Image " ++ toString i ++ ": " ++ e))

/-- The per-frame alignment loop of `pointing_analysis.main` (lines 106 to
118): reference sources from the first frame, one estimation attempt per
frame (the first frame included), the NaN similarity transform substituted
on failure together with a warning carrying the frame index and message.
Returns the transform list and the warnings. -/
def pointing_align (ext : PointExtern) (images : List RImg) :
    List SimTrans × List String :=
  let refSources := ext.sepCoords (images.headD [])
  let results := images.enum.map (fun p => pointStep ext refSources p.1 p.2)
  (results.map (fun r => r.1), results.filterMap (fun r => r.2))

theorem enum_map_getElem {α β : Type} (l : List α) (f : ℕ × α → β) (i : ℕ) (a : α)
    (hi : l[i]? = some a) : (l.enum.map f)[i]? = some (f (i, a)) := by
  rw [List.getElem?_map, List.enum, List.getElem?_enumFrom, hi]
  simp

theorem register_results_getElem (ext : AlignExtern) (refS : List (ℚ × ℚ)) (fIsRef : Bool)
    (images : List RImg) (i : ℕ) (img : RImg) (hi : images[i]? = some img) :
    (images.enum.map (fun p => registerStep ext refS fIsRef p.1 p.2))[i]?
      = some (registerStep ext refS fIsRef i img) :=
  enum_map_getElem images _ i img hi

theorem point_results_getElem (ext : PointExtern) (refS : List (ℚ × ℚ))
    (images : List RImg) (i : ℕ) (img : RImg) (hi : images[i]? = some img) :
    (images.enum.map (fun p => pointStep ext refS p.1 p.2))[i]?
      = some (pointStep ext refS i img) :=
  enum_map_getElem images _ i img hi

/-- C1 (amended): on a solver failure for a non-reference frame,
`register_stars` catches the error, emits a warning with the frame index
and message, substitutes the identity 2x3 matrix (not an all-NaN sentinel)
and warps the frame with it, and continues, returning a cube of the
original length; the all-NaN similarity-transform sentinel is what the
`pointing_analysis` alignment loop substitutes, which likewise warns and
continues over the whole cube. -/
theorem claim_C1_solver_failure (ext : AlignExtern) (images : List RImg) (ts : List ℤ)
    (refImg : Option RImg) (i : ℕ) (img : RImg) (e : String)
    (hi : images[i]? = some img)
    (hskip : ¬(i = 0 ∧ refImg = none))
    (hfail : ext.findTransform img (ext.findSources (regRefImage images refImg)) = .error e) :
    (register_stars ext images ts refImg).images.length = images.length ∧
    (register_stars ext images ts refImg).usedMats[i]? = some (some idMat23) ∧
    (register_stars ext images ts refImg).images[i]?
      = some (affine_transform ext img idMat23) ∧
    ("Image " ++ toString i ++ ": " ++ e) ∈ (register_stars ext images ts refImg).warnings ∧
    matAllNaN idMat23 = false ∧
    (∀ (pext : PointExtern) (pimages : List RImg) (j : ℕ) (pimg : RImg) (e2 : String),
      pimages[j]? = some pimg →
      pext.solve pimg (pext.sepCoords (pimages.headD [])) = .error e2 →
      (pointing_align pext pimages).1.length = pimages.length ∧
      (pointing_align pext pimages).1[j]? = some nanSimTrans ∧
      ("Image " ++ toString j ++ ": " ++ e2) ∈ (pointing_align pext pimages).2) := by
  have hcond : ¬(i = 0 ∧ regFirstIsRef refImg = true) := by
    rintro ⟨h0, hf⟩
    exact hskip ⟨h0, Option.isNone_iff_eq_none.mp hf⟩
  have hstep : registerStep ext (ext.findSources (regRefImage images refImg))
      (regFirstIsRef refImg) i img
      = (affine_transform ext img idMat23, some idMat23,
          some ("Image " ++ toString i ++ ": " ++ e)) := by
    rw [registerStep, if_neg hcond, hfail]
  have hres := register_results_getElem ext (ext.findSources (regRefImage images refImg))
    (regFirstIsRef refImg) images i img hi
  refine ⟨?_, ?_, ?_, ?_, by decide, ?_⟩
  · simp [register_stars, List.enum_length]
  · simp only [register_stars]
    rw [List.getElem?_map, hres, hstep]
    rfl
  · simp only [register_stars]
    rw [List.getElem?_map, hres, hstep]
    rfl
  · simp only [register_stars]
    refine List.mem_filterMap.mpr ⟨_, List.getElem?_mem hres, ?_⟩
    rw [hstep]
  · intro pext pimages j pimg e2 hj hfail2
    have hstep2 : pointStep pext (pext.sepCoords (pimages.headD [])) j pimg
        = (nanSimTrans, some ("Image " ++ toString j ++ ": " ++ e2)) := by
      rw [pointStep, hfail2]
    have hres2 := point_results_getElem pext (pext.sepCoords (pimages.headD []))
      pimages j pimg hj
    refine ⟨?_, ?_, ?_⟩
    · simp [pointing_align, List.enum_length]
    · simp only [pointing_align]
      rw [List.getElem?_map, hres2, hstep2]
      rfl
    · simp only [pointing_align]
      refine List.mem_filterMap.mpr ⟨_, List.getElem?_mem hres2, ?_⟩
      rw [hstep2]

/-- C1, the frozen claim at a concrete input: with a solver that fails on
frame 1 of a two-frame cube, `register_stars` substitutes the identity
matrix — a transform none of whose entries is NaN — not the all-NaN
sentinel the claim asserts; the warning and the length preservation do
hold. -/
theorem claim_C1_counterexample :
    (register_stars ⟨fun _ => [], fun _ _ => .error "no match", fun img _ => img⟩
        [[some 0], [some 1]] [0, 1] none).usedMats[1]? = some (some idMat23) ∧
    matAllNaN idMat23 = false ∧
    (register_stars ⟨fun _ => [], fun _ _ => .error "no match", fun img _ => img⟩
        [[some 0], [some 1]] [0, 1] none).warnings = ["Image 1: no match"] ∧
    (register_stars ⟨fun _ => [], fun _ _ => .error "no match", fun img _ => img⟩
        [[some 0], [some 1]] [0, 1] none).images.length = 2 := by
  refine ⟨?_, by decide, ?_, ?_⟩ <;> rfl

theorem claim_C1_witness :
    (register_stars ⟨fun _ => [], fun _ _ => .error "no match", fun img _ => img⟩
        [[some 0], [some 1]] [0, 1] none).images.length
      = ([[some 0], [some 1]] : List RImg).length ∧
    (register_stars ⟨fun _ => [], fun _ _ => .error "no match", fun img _ => img⟩
        [[some 0], [some 1]] [0, 1] none).usedMats[1]? = some (some idMat23) ∧
    ("Image " ++ toString (1 : ℕ) ++ ": " ++ "no match")
      ∈ (register_stars ⟨fun _ => [], fun _ _ => .error "no match", fun img _ => img⟩
        [[some 0], [some 1]] [0, 1] none).warnings := by
  have h := claim_C1_solver_failure
    ⟨fun _ => [], fun _ _ => .error "no match", fun img _ => img⟩
    [[some 0], [some 1]] [0, 1] none 1 [some 1] "no match" rfl (by simp) rfl
  exact ⟨h.1, h.2.1, h.2.2.2.1⟩

/-- C8 (amended): the registered cube has the same length as the input and
(when the reference is the cube's first frame) the reference frame is
unchanged, but the output is not a new cube: it is the caller's input
array mutated in place and returned, so overwritten frames are visible
across the stage boundary. -/
theorem claim_C8_register_inplace (ext : AlignExtern) (images : List RImg) (ts : List ℤ)
    (h : images ≠ []) :
    (register_stars ext images ts none).images.length = images.length ∧
    (register_stars ext images ts none).images[0]? = images[0]? ∧
    (register_stars ext images ts none).callerBuffer
      = (register_stars ext images ts none).images := by
  refine ⟨?_, ?_, rfl⟩
  · simp [register_stars, List.enum_length]
  · match images, h with
    | im :: tl, _ =>
      have h0 : (im :: tl)[0]? = some im := by simp
      have hres := register_results_getElem ext
        (ext.findSources (regRefImage (im :: tl) none)) (regFirstIsRef none)
        (im :: tl) 0 im h0
      have hstep : registerStep ext (ext.findSources (regRefImage (im :: tl) none))
          (regFirstIsRef none) 0 im = (im, none, none) := by
        rw [registerStep, if_pos ⟨rfl, rfl⟩]
      simp only [register_stars]
      rw [List.getElem?_map, hres, hstep, h0]
      rfl

/-- C8, the frozen claim at a concrete input: a two-frame cube whose input
array content after the call differs from its content before the call —
`register_stars` mutated the caller's cube in place rather than producing
a new cube (here the external warp resamples the second frame entirely
outside the grid, leaving NaN pixels). -/
theorem claim_C8_counterexample :
    (register_stars ⟨fun _ => [], fun _ _ => .ok idMat23, fun img _ => img.map (fun _ => none)⟩
        [[some 0, some 1], [some 0, some 1]] [0, 1] none).callerBuffer
      ≠ [[some 0, some 1], [some 0, some 1]] := by
  decide

theorem claim_C8_witness :
    (register_stars ⟨fun _ => [], fun _ _ => .ok idMat23, fun img _ => img.map (fun _ => none)⟩
        [[some 0, some 1], [some 0, some 1]] [0, 1] none).images.length
      = ([[some 0, some 1], [some 0, some 1]] : List RImg).length ∧
    (register_stars ⟨fun _ => [], fun _ _ => .ok idMat23, fun img _ => img.map (fun _ => none)⟩
        [[some 0, some 1], [some 0, some 1]] [0, 1] none).images[0]?
      = ([[some 0, some 1], [some 0, some 1]] : List RImg)[0]? ∧
    (register_stars ⟨fun _ => [], fun _ _ => .ok idMat23, fun img _ => img.map (fun _ => none)⟩
        [[some 0, some 1], [some 0, some 1]] [0, 1] none).callerBuffer
      = (register_stars ⟨fun _ => [], fun _ _ => .ok idMat23, fun img _ => img.map (fun _ => none)⟩
        [[some 0, some 1], [some 0, some 1]] [0, 1] none).images :=
  claim_C8_register_inplace
    ⟨fun _ => [], fun _ _ => .ok idMat23, fun img _ => img.map (fun _ => none)⟩
    [[some 0, some 1], [some 0, some 1]] [0, 1] (by simp)

/-- A source record as `sep.extract` returns it, restricted to a
representative subset of its fields kept in sep's dtype order: `thresh`
comes first in the dtype, the centroid `x`, `y` follow, `flux` comes
later. -/
structure SourceRec where
  thresh : ℚ
  x : ℚ
  y : ℚ
  flux : ℚ
deriving DecidableEq

/-- Sort key realizing `sources.sort(order='flux')`: numpy compares the
named field first and then the remaining fields, in the order in which
they come up in the dtype, to break ties. -/
def npFluxKey (s : SourceRec) : Lex (ℚ × Lex (ℚ × Lex (ℚ × ℚ))) :=
  toLex (s.flux, toLex (s.thresh, toLex (s.x, s.y)))

/-- The comparison `sources.sort(order='flux')` sorts by, written out as
numpy performs it: flux first, then the remaining fields in dtype order as
tie-breakers. -/
def npFluxLE (a b : SourceRec) : Prop :=
  a.flux < b.flux ∨ (a.flux = b.flux ∧
    (a.thresh < b.thresh ∨ (a.thresh = b.thresh ∧
      (a.x < b.x ∨ (a.x = b.x ∧ a.y ≤ b.y)))))

instance : DecidableRel npFluxLE := fun a b => by
  unfold npFluxLE
  infer_instance

theorem npFluxLE_iff_key {a b : SourceRec} : npFluxLE a b ↔ npFluxKey a ≤ npFluxKey b := by
  simp [npFluxLE, npFluxKey, Prod.Lex.le_iff]

instance : IsTotal SourceRec npFluxLE :=
  ⟨fun a b => (le_total (npFluxKey a) (npFluxKey b)).imp
    npFluxLE_iff_key.mpr npFluxLE_iff_key.mpr⟩

instance : IsTrans SourceRec npFluxLE :=
  ⟨fun _ _ _ h1 h2 => npFluxLE_iff_key.mpr
    (le_trans (npFluxLE_iff_key.mp h1) (npFluxLE_iff_key.mp h2))⟩

theorem npFluxLE_flux_le {a b : SourceRec} (h : npFluxLE a b) : a.flux ≤ b.flux := by
  rcases h with h | ⟨heq, _⟩
  · exact le_of_lt h
  · exact le_of_eq heq

/-- `sources.sort(order='flux')` (tools.py line 235).  Numpy's sort is not
stable by default, but since the comparison uses every field, any two
records it could exchange are equal, so the sorted array is the one value
this deterministic model produces. -/
def npSortByFlux (l : List SourceRec) : List SourceRec := List.insertionSort npFluxLE l

/-- The externals of `sep_extract`: the masked-array fill
`data.filled(np.median(data)).astype(np.float32)`, the background model
(`sep.Background`: global rms and background subtraction), and the raw
connected-region extraction `sep.extract`, which returns records in
extraction order. -/
structure SepEnv where
  fillMasked : RImg → RImg
  globalrms : RImg → ℚ
  backSub : RImg → RImg
  extractRaw : RImg → ℚ → List SourceRec

/-- The image `sep_extract` hands to the background stage (lines 228 to
231): the masked branch fills invalid pixels with the median, the plain
branch only converts the dtype. -/
def sepImage (env : SepEnv) (data : RImg) (isMasked : Bool) : RImg :=
  if isMasked then env.fillMasked data else data

/-- The raw catalog before sorting: `sep.extract(image - bkg.back(),
thresh)` with `thresh = threshold * bkg.globalrms` (lines 232 to 234). -/
def sepRawCatalog (env : SepEnv) (data : RImg) (isMasked : Bool) (threshold : ℚ) :
    List SourceRec :=
  env.extractRaw (env.backSub (sepImage env data isMasked))
    (threshold * env.globalrms (sepImage env data isMasked))

/-- `tools.sep_extract` (lines 212 to 237): extraction followed by
`sources.sort(order='flux')`. -/
def sep_extract (env : SepEnv) (data : RImg) (isMasked : Bool) (threshold : ℚ) :
    List SourceRec :=
  npSortByFlux (sepRawCatalog env data isMasked threshold)

/-- `tools.sep_sources_coordinates` (lines 239 to 248): the `(x, y)` pairs
of the extracted catalog, in catalog order. -/
def sep_sources_coordinates (env : SepEnv) (data : RImg) (isMasked : Bool) (threshold : ℚ) :
    List (ℚ × ℚ) :=
  (sep_extract env data isMasked threshold).map (fun s => (s.x, s.y))

/-- Flux comparison alone.  Used by `specStableFluxSort`. -/
def specFluxLE (a b : SourceRec) : Prop := a.flux ≤ b.flux

instance : DecidableRel specFluxLE := fun a b => inferInstanceAs (Decidable (a.flux ≤ b.flux))

/-- Refinement-comparison definition following the words of the spec, not
the source: ascending flux with ties kept in extraction order, that is, a
stable sort on the flux field alone. -/
def specStableFluxSort (l : List SourceRec) : List SourceRec := List.insertionSort specFluxLE l

/-- C9 (amended): the extracted catalog is sorted ascending by flux, but
flux ties are broken by the remaining record fields in dtype order (the
documented behavior of numpy field-ordered sort), not by extraction
order; the catalog is a permutation of the raw extraction, and the
coordinate variant returns exactly its `(x, y)` pairs in the same
order. -/
theorem claim_C9_sep_extract_sorted (env : SepEnv) (data : RImg) (isMasked : Bool)
    (threshold : ℚ) :
    (sep_extract env data isMasked threshold).Sorted npFluxLE ∧
    ((sep_extract env data isMasked threshold).map (fun s => s.flux)).Sorted (· ≤ ·) ∧
    (sep_extract env data isMasked threshold).Perm (sepRawCatalog env data isMasked threshold) ∧
    sep_sources_coordinates env data isMasked threshold
      = (sep_extract env data isMasked threshold).map (fun s => (s.x, s.y)) := by
  refine ⟨?_, ?_, ?_, rfl⟩
  · exact List.sorted_insertionSort npFluxLE _
  · exact List.Pairwise.map (fun s : SourceRec => s.flux)
      (fun a b hab => npFluxLE_flux_le hab)
      (List.sorted_insertionSort npFluxLE _)
  · exact List.perm_insertionSort npFluxLE _

/-- C9, the frozen claim at a concrete input: two sources extracted in the
order high-thresh-first with equal flux; numpy's field-ordered sort puts
the lower-thresh record first, while a stable sort by flux keeping
extraction order (the spec sort, `specStableFluxSort`) keeps the
extraction order, so the two disagree. -/
theorem claim_C9_counterexample :
    (⟨5, 1, 1, 7⟩ : SourceRec).flux = (⟨2, 2, 2, 7⟩ : SourceRec).flux ∧
    sep_extract ⟨fun img => img, fun _ => 1, fun img => img,
        fun _ _ => [⟨5, 1, 1, 7⟩, ⟨2, 2, 2, 7⟩]⟩ [] false 3
      = [⟨2, 2, 2, 7⟩, ⟨5, 1, 1, 7⟩] ∧
    specStableFluxSort (sepRawCatalog ⟨fun img => img, fun _ => 1, fun img => img,
        fun _ _ => [⟨5, 1, 1, 7⟩, ⟨2, 2, 2, 7⟩]⟩ [] false 3)
      = [⟨5, 1, 1, 7⟩, ⟨2, 2, 2, 7⟩] ∧
    sep_extract ⟨fun img => img, fun _ => 1, fun img => img,
        fun _ _ => [⟨5, 1, 1, 7⟩, ⟨2, 2, 2, 7⟩]⟩ [] false 3
      ≠ specStableFluxSort (sepRawCatalog ⟨fun img => img, fun _ => 1, fun img => img,
        fun _ _ => [⟨5, 1, 1, 7⟩, ⟨2, 2, 2, 7⟩]⟩ [] false 3) := by
  refine ⟨rfl, by decide, by decide, by decide⟩

/-- The default record Lean's total `List.getD` supplies for an
out-of-range index; `find_closest_sources` only indexes in range. -/
def defRec : SourceRec := ⟨0, 0, 0, 0⟩

/-- Squared Euclidean distance between a catalog record and one query
coordinate.  The source computes the square root of this value
(tools.py lines 274 to 275); the square root is strictly monotone on
nonnegative reals, so equality and minimality of the computed distances
coincide with equality and minimality of these squared values, and the
claims about Euclidean distances are stated through `Real.sqrt` of
them. -/
def d2 (c : SourceRec) (q : ℚ × ℚ) : ℚ := (c.x - q.1) ^ 2 + (c.y - q.2) ^ 2

/-- `dist.min(axis=0)` for one query column: the minimum squared distance
over the catalog (tools.py line 278). -/
def colMinD2 (catalog : List SourceRec) (q : ℚ × ℚ) : ℚ :=
  match catalog with
  | [] => 0
  | c :: cs => (cs.map (fun c2 => d2 c2 q)).foldl qmin (d2 c q)

theorem qmin_le_left (a b : ℚ) : qmin a b ≤ a := by
  unfold qmin
  split
  · exact le_refl a
  · exact le_of_not_le (by assumption)

theorem qmin_le_right (a b : ℚ) : qmin a b ≤ b := by
  unfold qmin
  split
  · assumption
  · exact le_refl b

theorem qmin_eq_or (a b : ℚ) : qmin a b = a ∨ qmin a b = b := by
  unfold qmin
  split
  · exact Or.inl rfl
  · exact Or.inr rfl

theorem foldl_qmin_le_init (l : List ℚ) (a : ℚ) : l.foldl qmin a ≤ a := by
  induction l generalizing a with
  | nil => exact le_refl a
  | cons b t ih => exact le_trans (ih (qmin a b)) (qmin_le_left a b)

theorem foldl_qmin_le_mem (l : List ℚ) : ∀ (a x : ℚ), x ∈ l → l.foldl qmin a ≤ x := by
  induction l with
  | nil =>
    intro a x hx
    cases hx
  | cons b t ih =>
    intro a x hx
    rcases List.mem_cons.mp hx with rfl | hxt
    · exact le_trans (foldl_qmin_le_init t (qmin a x)) (qmin_le_right a x)
    · exact ih (qmin a b) x hxt

theorem foldl_qmin_eq_or_mem (l : List ℚ) (a : ℚ) :
    l.foldl qmin a = a ∨ l.foldl qmin a ∈ l := by
  induction l generalizing a with
  | nil => exact Or.inl rfl
  | cons b t ih =>
    rcases ih (qmin a b) with heq | hmem
    · rcases qmin_eq_or a b with hab | hab
      · exact Or.inl (by rw [List.foldl_cons, heq, hab])
      · exact Or.inr (by rw [List.foldl_cons, heq, hab]; exact List.mem_cons_self b t)
    · exact Or.inr (List.mem_cons_of_mem b hmem)

theorem colMinD2_le (catalog : List SourceRec) (q : ℚ × ℚ)
    (c : SourceRec) (hc : c ∈ catalog) : colMinD2 catalog q ≤ d2 c q := by
  match catalog, hc with
  | c0 :: cs, hc =>
    rcases List.mem_cons.mp hc with rfl | hcs
    · exact foldl_qmin_le_init _ _
    · exact foldl_qmin_le_mem _ _ _ (List.mem_map.mpr ⟨c, hcs, rfl⟩)

theorem colMinD2_attained (catalog : List SourceRec) (q : ℚ × ℚ) (h : catalog ≠ []) :
    ∃ c ∈ catalog, colMinD2 catalog q = d2 c q := by
  match catalog, h with
  | c0 :: cs, _ =>
    rcases foldl_qmin_eq_or_mem ((cs.map (fun c2 => d2 c2 q))) (d2 c0 q) with heq | hmem
    · exact ⟨c0, List.mem_cons_self c0 cs, heq⟩
    · obtain ⟨c, hcs, hcd⟩ := List.mem_map.mp hmem
      refine ⟨c, List.mem_cons_of_mem c0 hcs, ?_⟩
      show (cs.map (fun c2 => d2 c2 q)).foldl qmin (d2 c0 q) = d2 c q
      exact hcd.symm

/-- The pairs `np.where(dist == dist.min(axis=0))` yields, in numpy's
row-major order: catalog index `i` outermost, query index `j` innermost,
kept when the squared distance at `(i, j)` equals the column minimum of
query `j` (tools.py line 278). -/
def whereMinPairs (catalog : List SourceRec) (coords : List (ℚ × ℚ)) : List (ℕ × ℕ) :=
  (List.range catalog.length).flatMap (fun i =>
    (List.range coords.length).filterMap (fun j =>
      if d2 (catalog.getD i defRec) (coords.getD j (0, 0))
          = colMinD2 catalog (coords.getD j (0, 0))
      then some (i, j) else none))

/-- Comparison modeling `np.argsort(i_input)` (tools.py line 281): pairs
ordered by query index.  The numpy argsort is not stable on ties, but
every property proved below is invariant under the order of pairs with
equal query index. -/
def pairLE (a b : ℕ × ℕ) : Prop := a.2 ≤ b.2

instance : DecidableRel pairLE := fun a b => inferInstanceAs (Decidable (a.2 ≤ b.2))

instance : IsTotal (ℕ × ℕ) pairLE := ⟨fun a b => le_total a.2 b.2⟩

instance : IsTrans (ℕ × ℕ) pairLE := ⟨fun _ _ _ h1 h2 => le_trans h1 h2⟩

/-- The matched index pairs of `find_closest_sources`, reordered to align
with the original query order (lines 281 to 283).  The second components
are the code's `i_input` values — exposed so that the alignment contract
can be stated. -/
def closestPairs (catalog : List SourceRec) (coords : List (ℚ × ℚ)) : List (ℕ × ℕ) :=
  List.insertionSort pairLE (whereMinPairs catalog coords)

/-- `tools.find_closest_sources` (lines 250 to 287): the catalog rows at
the matched indices, and the matched distances `dist[(i_cat, i_input)]`
(the source returns the square roots of the squared distances given
here). -/
def find_closest_sources (catalog : List SourceRec) (coords : List (ℚ × ℚ)) :
    List SourceRec × List ℚ :=
  ((closestPairs catalog coords).map (fun p => catalog.getD p.1 defRec),
   (closestPairs catalog coords).map (fun p =>
     d2 (catalog.getD p.1 defRec) (coords.getD p.2 (0, 0))))

/-- How many catalog entries attain the minimum distance of query `j`. -/
def minimizerCount (catalog : List SourceRec) (coords : List (ℚ × ℚ)) (j : ℕ) : ℕ :=
  ((List.range catalog.length).filter (fun i =>
    decide (d2 (catalog.getD i defRec) (coords.getD j (0, 0))
      = colMinD2 catalog (coords.getD j (0, 0))))).length

theorem mem_whereMinPairs (catalog : List SourceRec) (coords : List (ℚ × ℚ)) (i j : ℕ) :
    (i, j) ∈ whereMinPairs catalog coords ↔
      i < catalog.length ∧ j < coords.length ∧
        d2 (catalog.getD i defRec) (coords.getD j (0, 0))
          = colMinD2 catalog (coords.getD j (0, 0)) := by
  constructor
  · intro h
    obtain ⟨i2, hi2, hmem⟩ := List.mem_flatMap.mp h
    obtain ⟨j2, hj2, heq⟩ := List.mem_filterMap.mp hmem
    by_cases hc : d2 (catalog.getD i2 defRec) (coords.getD j2 (0, 0))
        = colMinD2 catalog (coords.getD j2 (0, 0))
    · rw [if_pos hc] at heq
      obtain ⟨rfl, rfl⟩ : i2 = i ∧ j2 = j := by
        have := Option.some.inj heq
        exact ⟨congrArg Prod.fst this, congrArg Prod.snd this⟩
      exact ⟨List.mem_range.mp hi2, List.mem_range.mp hj2, hc⟩
    · rw [if_neg hc] at heq
      cases heq
  · rintro ⟨hi, hj, hc⟩
    exact List.mem_flatMap.mpr ⟨i, List.mem_range.mpr hi,
      List.mem_filterMap.mpr ⟨j, List.mem_range.mpr hj, by rw [if_pos hc]⟩⟩

theorem filterMap_if_pair_snd (p : ℕ → Prop) [DecidablePred p] (i : ℕ) (l : List ℕ) :
    (l.filterMap (fun j => if p j then some (i, j) else none)).map Prod.snd
      = l.filterMap (fun j => if p j then some j else none) := by
  induction l with
  | nil => rfl
  | cons a t ih =>
    by_cases h : p a <;> simp [h, ih]

theorem filterMap_if_eq_filter (p : ℕ → Prop) [DecidablePred p] (l : List ℕ) :
    l.filterMap (fun j => if p j then some j else none) = l.filter (fun j => decide (p j)) := by
  induction l with
  | nil => rfl
  | cons a t ih =>
    by_cases h : p a <;> simp [h, ih]

theorem sum_ite_count (l : List ℕ) (p : ℕ → Prop) [DecidablePred p] :
    (l.map (fun i => if p i then 1 else 0)).sum = (l.filter (fun i => decide (p i))).length := by
  induction l with
  | nil => rfl
  | cons a t ih =>
    by_cases h : p a <;> simp [h, ih, Nat.add_comm]

theorem count_sum_length (l : List ℕ) (N : ℕ) (h : ∀ x ∈ l, x < N) :
    (∑ j ∈ Finset.range N, l.count j) = l.length := by
  induction l with
  | nil => simp
  | cons a t ih =>
    have ha : a < N := h a (List.mem_cons_self a t)
    have ht : ∀ x ∈ t, x < N := fun x hx => h x (List.mem_cons_of_mem a hx)
    simp only [List.count_cons, List.length_cons]
    rw [Finset.sum_add_distrib, ih ht]
    congr 1
    have : (∑ j ∈ Finset.range N, if (a == j) = true then 1 else 0)
        = ∑ j ∈ Finset.range N, if a = j then 1 else 0 := by
      refine Finset.sum_congr rfl (fun j _ => ?_)
      simp [beq_iff_eq]
    rw [this, Finset.sum_ite_eq]
    simp [Finset.mem_range.mpr ha]

theorem count_snd_whereMinPairs (catalog : List SourceRec) (coords : List (ℚ × ℚ))
    (j : ℕ) (hj : j < coords.length) :
    ((whereMinPairs catalog coords).map Prod.snd).count j
      = minimizerCount catalog coords j := by
  unfold whereMinPairs minimizerCount
  rw [List.map_flatMap, List.count_flatMap]
  have hinner : ∀ i ∈ List.range catalog.length,
      (List.count j ∘ fun i2 => (((List.range coords.length).filterMap (fun j2 =>
          if d2 (catalog.getD i2 defRec) (coords.getD j2 (0, 0))
              = colMinD2 catalog (coords.getD j2 (0, 0))
          then some (i2, j2) else none)).map Prod.snd)) i
        = if d2 (catalog.getD i defRec) (coords.getD j (0, 0))
              = colMinD2 catalog (coords.getD j (0, 0)) then 1 else 0 := by
    intro i _
    show List.count j (((List.range coords.length).filterMap (fun j2 =>
        if d2 (catalog.getD i defRec) (coords.getD j2 (0, 0))
            = colMinD2 catalog (coords.getD j2 (0, 0))
        then some (i, j2) else none)).map Prod.snd) = _
    rw [filterMap_if_pair_snd (fun j2 => d2 (catalog.getD i defRec) (coords.getD j2 (0, 0))
        = colMinD2 catalog (coords.getD j2 (0, 0))),
      filterMap_if_eq_filter]
    by_cases h : d2 (catalog.getD i defRec) (coords.getD j (0, 0))
        = colMinD2 catalog (coords.getD j (0, 0))
    · rw [if_pos h]
      exact List.count_eq_one_of_mem
        ((List.nodup_range coords.length).filter _)
        (List.mem_filter.mpr ⟨List.mem_range.mpr hj, by simpa using h⟩)
    · rw [if_neg h]
      refine List.count_eq_zero_of_not_mem ?_
      intro hmem
      exact h (by simpa using (List.mem_filter.mp hmem).2)
  rw [List.map_congr_left hinner, sum_ite_count]

/-- C2: for every query, `find_closest_sources` emits, aligned with the
query order, every catalog entry whose distance equals that query's
minimum over the catalog (exact equality, no tolerance) together with
that minimum distance; with a unique nearest entry per query the result
has length exactly N, and exact ties all get emitted, so the result can
be longer than N. -/
theorem claim_C2_find_closest (catalog : List SourceRec) (coords : List (ℚ × ℚ))
    (hcat : catalog ≠ []) :
    catalog ≠ [] ∧
    ((closestPairs catalog coords).map Prod.snd).Sorted (· ≤ ·) ∧
    (∀ p ∈ closestPairs catalog coords,
      p.1 < catalog.length ∧ p.2 < coords.length ∧
        d2 (catalog.getD p.1 defRec) (coords.getD p.2 (0, 0))
          = colMinD2 catalog (coords.getD p.2 (0, 0)) ∧
        IsLeast {r : ℝ | ∃ c ∈ catalog,
            r = Real.sqrt ((d2 c (coords.getD p.2 (0, 0)) : ℚ) : ℝ)}
          (Real.sqrt ((d2 (catalog.getD p.1 defRec) (coords.getD p.2 (0, 0)) : ℚ) : ℝ))) ∧
    (∀ i j : ℕ, i < catalog.length → j < coords.length →
      d2 (catalog.getD i defRec) (coords.getD j (0, 0))
        = colMinD2 catalog (coords.getD j (0, 0)) →
      (i, j) ∈ closestPairs catalog coords) ∧
    (find_closest_sources catalog coords).1
      = (closestPairs catalog coords).map (fun p => catalog.getD p.1 defRec) ∧
    (find_closest_sources catalog coords).2
      = (closestPairs catalog coords).map (fun p =>
          d2 (catalog.getD p.1 defRec) (coords.getD p.2 (0, 0))) ∧
    (∀ j : ℕ, j < coords.length →
      ((closestPairs catalog coords).map Prod.snd).count j
        = minimizerCount catalog coords j) ∧
    ((∀ j : ℕ, j < coords.length → minimizerCount catalog coords j = 1) →
      (closestPairs catalog coords).length = coords.length) := by
  refine ⟨hcat, ?_⟩
  have hperm : (closestPairs catalog coords).Perm (whereMinPairs catalog coords) :=
    List.perm_insertionSort pairLE _
  have hchar : ∀ p ∈ closestPairs catalog coords,
      p.1 < catalog.length ∧ p.2 < coords.length ∧
        d2 (catalog.getD p.1 defRec) (coords.getD p.2 (0, 0))
          = colMinD2 catalog (coords.getD p.2 (0, 0)) := by
    intro p hp
    obtain ⟨i, j⟩ := p
    exact (mem_whereMinPairs catalog coords i j).mp (hperm.mem_iff.mp hp)
  have hcount : ∀ j : ℕ, j < coords.length →
      ((closestPairs catalog coords).map Prod.snd).count j
        = minimizerCount catalog coords j := by
    intro j hj
    rw [(hperm.map Prod.snd).count_eq j]
    exact count_snd_whereMinPairs catalog coords j hj
  refine ⟨?_, ?_, ?_, rfl, rfl, hcount, ?_⟩
  · exact List.Pairwise.map Prod.snd (fun a b hab => hab)
      (List.sorted_insertionSort pairLE _)
  · intro p hp
    obtain ⟨hi, hj, hd⟩ := hchar p hp
    refine ⟨hi, hj, hd, ⟨⟨catalog.getD p.1 defRec, ?_, rfl⟩, ?_⟩⟩
    · rw [List.getD_eq_getElem _ _ hi]
      exact List.getElem_mem hi
    · rintro r ⟨c, hcmem, rfl⟩
      refine Real.sqrt_le_sqrt ?_
      rw [Rat.cast_le]
      rw [hd]
      exact colMinD2_le catalog (coords.getD p.2 (0, 0)) c hcmem
  · intro i j hi hj hd
    exact hperm.mem_iff.mpr ((mem_whereMinPairs catalog coords i j).mpr ⟨hi, hj, hd⟩)
  · intro huniq
    have hlt : ∀ x ∈ (closestPairs catalog coords).map Prod.snd, x < coords.length := by
      intro x hx
      obtain ⟨p, hp, rfl⟩ := List.mem_map.mp hx
      exact (hchar p hp).2.1
    have hsum := count_sum_length ((closestPairs catalog coords).map Prod.snd)
      coords.length hlt
    rw [Finset.sum_congr rfl (fun j hjr => by
      rw [hcount j (Finset.mem_range.mp hjr), huniq j (Finset.mem_range.mp hjr)])] at hsum
    simp only [Finset.sum_const, Finset.card_range, smul_eq_mul, mul_one] at hsum
    rw [← List.length_map (closestPairs catalog coords) Prod.snd, hsum]

theorem claim_C2_witness :
    (([⟨0, 0, 0, 0⟩, ⟨0, 10, 10, 0⟩] : List SourceRec) ≠ []) ∧
    (∀ p ∈ closestPairs [⟨0, 0, 0, 0⟩, ⟨0, 10, 10, 0⟩] [(1, 0)],
      p.1 < ([⟨0, 0, 0, 0⟩, ⟨0, 10, 10, 0⟩] : List SourceRec).length ∧
      p.2 < ([((1 : ℚ), (0 : ℚ))] : List (ℚ × ℚ)).length ∧
        d2 (([⟨0, 0, 0, 0⟩, ⟨0, 10, 10, 0⟩] : List SourceRec).getD p.1 defRec)
            (([((1 : ℚ), (0 : ℚ))] : List (ℚ × ℚ)).getD p.2 (0, 0))
          = colMinD2 [⟨0, 0, 0, 0⟩, ⟨0, 10, 10, 0⟩]
              (([((1 : ℚ), (0 : ℚ))] : List (ℚ × ℚ)).getD p.2 (0, 0)) ∧
        IsLeast {r : ℝ | ∃ c ∈ ([⟨0, 0, 0, 0⟩, ⟨0, 10, 10, 0⟩] : List SourceRec),
            r = Real.sqrt ((d2 c (([((1 : ℚ), (0 : ℚ))] : List (ℚ × ℚ)).getD p.2 (0, 0)) : ℚ) : ℝ)}
          (Real.sqrt ((d2 (([⟨0, 0, 0, 0⟩, ⟨0, 10, 10, 0⟩] : List SourceRec).getD p.1 defRec)
            (([((1 : ℚ), (0 : ℚ))] : List (ℚ × ℚ)).getD p.2 (0, 0)) : ℚ) : ℝ))) ∧
    ((∀ j : ℕ, j < ([((1 : ℚ), (0 : ℚ))] : List (ℚ × ℚ)).length →
        minimizerCount [⟨0, 0, 0, 0⟩, ⟨0, 10, 10, 0⟩] [(1, 0)] j = 1) →
      (closestPairs [⟨0, 0, 0, 0⟩, ⟨0, 10, 10, 0⟩] [(1, 0)]).length
        = ([((1 : ℚ), (0 : ℚ))] : List (ℚ × ℚ)).length) := by
  have h := claim_C2_find_closest [⟨0, 0, 0, 0⟩, ⟨0, 10, 10, 0⟩] [(1, 0)] (by simp)
  exact ⟨h.1, h.2.2.1, h.2.2.2.2.2.2.2⟩

end Castor
